import Mathlib

/-!
Verification of the chat-registry and broadcast logic of the
`bereke_vunerability_bot` repository.

The repository holds two variants of the same service:

* `src/api/index.js` — file-backed registry: a JS array `chatIds` of string
  identifiers, persisted as a JSON array at a fixed path (namespace `FileV`);
* `src/unnamed/part_000` — key-value-backed registry: a single key `all_chats`
  holding a comma-joined string of identifiers in a KV store (namespace `KvV`).

Both variants are embedded below, faithful to their JS sources: the external
messaging client is an oracle `send : String → Outcome`, the persistence
backend is an oracle of write outcomes, JSON parsing is an oracle parameter.
-/

namespace Bereke

/-! ### Substring search (embeds JS `String.prototype.includes`) -/

/-- Boolean prefix test on character lists. -/
def isPrefixB : List Char → List Char → Bool
  | [], _ => true
  | _ :: _, [] => false
  | a :: as, b :: bs => a == b && isPrefixB as bs

/-- Boolean infix (substring) test on character lists. -/
def isInfixB (pat : List Char) : List Char → Bool
  | [] => isPrefixB pat []
  | c :: rest => isPrefixB pat (c :: rest) || isInfixB pat rest

/-- `containsSub hay pat` embeds the JS expression `hay.includes(pat)`. -/
def containsSub (hay pat : String) : Bool :=
  isInfixB pat.toList hay.toList

/-- Boolean element membership via `==`, embedding JS `Array.includes`. -/
def memB (x : String) : List String → Bool
  | [] => false
  | d :: ds => x == d || memB x ds

/-! ### Splitting on commas (embeds JS `str.split(',')`) -/

/-- Splits a character list at every comma, keeping empty pieces,
exactly as JS `split(',')` does. -/
def splitComma : List Char → List (List Char)
  | [] => [[]]
  | c :: rest =>
    if c = ',' then [] :: splitComma rest
    else
      match splitComma rest with
      | t :: ts => (c :: t) :: ts
      | [] => [[c]]

/-! ### The JS global regex replace `str.replace(/,?ID(,|$)/g, '')`

`removeFromAllChats` in `src/unnamed/part_000` removes a chat id by globally
replacing every match of the pattern `,?ID(,|$)` with the empty string.  We
embed the regex engine for exactly this pattern: an optional leading comma,
the literal id, then either a comma or the end of the string — note that the
trailing comma, when present, is part of the match and is deleted with it. -/

/-- Drops `p` as a literal prefix of `cs`, returning the rest on success. -/
def dropPref : List Char → List Char → Option (List Char)
  | [], cs => some cs
  | _ :: _, [] => none
  | p :: ps, c :: cs => if p = c then dropPref ps cs else none

/-- Matches `ID(,|$)` at the head of `cs`: the literal `id`, then either a
comma (consumed) or the end of the input. Returns the rest after the match. -/
def matchIdEnd (id cs : List Char) : Option (List Char) :=
  match dropPref id cs with
  | none => none
  | some [] => some []
  | some (c :: r) => if c = ',' then some r else none

/-- Matches `,?ID(,|$)` at the head of `cs`: the greedy optional comma is
tried first, falling back to a match without it, as the regex engine does. -/
def matchAt (id cs : List Char) : Option (List Char) :=
  match cs with
  | c :: r =>
    if c = ',' then
      match matchIdEnd id r with
      | some out => some out
      | none => matchIdEnd id cs
    else matchIdEnd id cs
  | [] => matchIdEnd id cs

/-- One global-replace scan with explicit fuel: at each position, if the
pattern matches, the whole match is dropped and scanning resumes after it;
otherwise the current character is kept and scanning advances by one. -/
def gReplaceF (id : List Char) : Nat → List Char → List Char
  | 0, _ => []
  | _ + 1, [] => []
  | f + 1, c :: rest =>
    match matchAt id (c :: rest) with
    | some r => gReplaceF id f r
    | none => c :: gReplaceF id f rest

/-- Global replacement of `,?id(,|$)` by the empty string, as in
`allIdsStr.replace(new RegExp(...), '')`.  Fuel `cs.length` always suffices:
see `gReplace_cons`. -/
def gReplace (id cs : List Char) : List Char :=
  gReplaceF id cs.length cs

/-! ### Shared broadcast vocabulary -/

/-- Outcome of one outbound `bot.sendMessage` call, as the external
messaging client reports it: success, or a failure with an error message. -/
inductive Outcome
  | ok
  | err (msg : String)
deriving DecidableEq

/-- `true` exactly on successful sends. -/
def isOkB : Outcome → Bool
  | .ok => true
  | .err _ => false

/-- Whether destination `d` fails with an error matching the given
classifier (a "permanent" failure for that variant). -/
def permFail (classify : String → Bool) (send : String → Outcome) (d : String) : Bool :=
  match send d with
  | .ok => false
  | .err m => classify m

/-- Number of destinations whose send succeeds. -/
def countOk (send : String → Outcome) (ds : List String) : Nat :=
  ds.countP (fun d => isOkB (send d))

/-- HTTP response of `POST /send-report`: a JSON success body carrying
`sentTo` and possibly a `totalChats` field, a 400, or a 500. -/
inductive Resp
  | ok (sentTo : Nat) (totalChats : Option Nat)
  | badRequest
  | serverError
deriving DecidableEq

/-- The chat kinds the registering handlers test for:
`chatType === 'group' || chatType === 'supergroup' || chatType === 'private'`.
The spec calls the `private` kind `direct`. -/
def allowedKind (k : String) : Bool :=
  k = "group" || k = "supergroup" || k = "private"

/-! ## File-backed variant (`src/api/index.js`) -/

namespace FileV

/-- Process state of the file variant: the in-memory array `chatIds` and the
content of `/tmp/chats.json` as last successfully written (`none` when the
file has never been written). -/
structure FileState where
  chatIds : List String
  disk : Option (List String)
deriving DecidableEq

/-- `saveChats()`: writes `chatIds` to the file.  `wOk` is the outcome of the
`fs.writeFileSync` call; on failure the error is caught and logged, so the
function is total and leaves the previous file content in place. -/
def saveChats (wOk : Bool) (s : FileState) : FileState :=
  if wOk then { s with disk := some s.chatIds } else s

/-- `addChat(chatId)`: pushes the stringified id if not already an element of
`chatIds`, then saves. -/
def addChat (wOk : Bool) (x : String) (s : FileState) : FileState :=
  if x ∈ s.chatIds then s
  else saveChats wOk { s with chatIds := s.chatIds ++ [x] }

/-- `getAllChatIds()`: returns the in-memory array. -/
def getAllChatIds (s : FileState) : List String :=
  s.chatIds

/-- `removeChat(chatIdStr)`: filters the id out of `chatIds`, then saves. -/
def removeChat (wOk : Bool) (x : String) (s : FileState) : FileState :=
  saveChats wOk { s with chatIds := s.chatIds.filter (fun e => e != x) }

/-- The `new_chat_members` handler: registers the chat only for kinds
`group`, `supergroup`, `private`. -/
def newChatMembers (wOk : Bool) (x kind : String) (s : FileState) : FileState :=
  if allowedKind kind then addChat wOk x s else s

/-- The `/start` handler: calls `addChat(msg.chat.id)` with no test on
`msg.chat.type` (the `kind` argument is received but ignored). -/
def startCmd (wOk : Bool) (x kind : String) (s : FileState) : FileState :=
  addChat wOk x s

/-- Startup load of `/tmp/chats.json`.  `file` is the raw file content
(`none` when `fs.existsSync` is false); `parse` is the external `JSON.parse`
restricted to the persisted representation, a JSON array of strings
(`Except.error` on malformed data, which the `catch` turns into `[]`). -/
def loadChats (parse : String → Except Unit (List String)) (file : Option String) :
    List String :=
  match file with
  | none => []
  | some raw =>
    match parse raw with
    | .ok l => l
    | .error _ => []

/-- Error classification of the file variant:
`err.message.includes('chat not found') || err.message.includes('blocked by user')`. -/
def classifyFile (m : String) : Bool :=
  containsSub m "chat not found" || containsSub m "blocked by user"

/-- Result of the broadcast loop: the final `sentCount`, the destinations a
send was attempted to (in order), and the final process state. -/
structure LoopOut where
  sentTo : Nat
  attempts : List String
  state : FileState
deriving DecidableEq

/-- The `for (const chatIdStr of chatIdsArray)` loop of `POST /send-report`:
one awaited send per destination; on success `sentCount++`; on failure, a
permanently-classified error triggers `removeChat`, any other error is only
logged; the loop always continues. -/
def sendLoop (send : String → Outcome) (wOk : Bool) :
    List String → FileState → LoopOut
  | [], s => ⟨0, [], s⟩
  | d :: ds, s =>
    match send d with
    | .ok =>
      let r := sendLoop send wOk ds s
      ⟨r.sentTo + 1, d :: r.attempts, r.state⟩
    | .err m =>
      let s2 := if classifyFile m then removeChat wOk d s else s
      let r := sendLoop send wOk ds s2
      ⟨r.sentTo, d :: r.attempts, r.state⟩

/-- The `POST /send-report` handler: 400 on a missing or empty `message`;
an early `{ sentTo: 0, totalChats: 0 }` on an empty registry; otherwise the
loop runs over a snapshot of the registry and the response reports
`sentTo` and `totalChats` (the length of that snapshot). -/
def sendReport (send : String → Outcome) (wOk : Bool) (body : Option String)
    (s : FileState) : Resp × List String × FileState :=
  match body with
  | none => (.badRequest, [], s)
  | some msg =>
    if msg = "" then (.badRequest, [], s)
    else
      let ds := getAllChatIds s
      if ds.length = 0 then (.ok 0 (some 0), [], s)
      else
        let r := sendLoop send wOk ds s
        (.ok r.sentTo (some ds.length), r.attempts, r.state)

end FileV

/-! ## Key-value-backed variant (`src/unnamed/part_000`) -/

namespace KvV

/-- `addToAllChats(chatId)`: reads the `all_chats` string (empty when the key
is unset), and only when the id does NOT occur as a substring of it appends
the id after a comma separator (no comma when the string was empty). -/
def addToAllChats (x st : String) : String :=
  if containsSub st x then st
  else if st = "" then x else st ++ "," ++ x

/-- `addToAllChats` with the outcome of the `kv.set` write made explicit:
the helper has no try/catch, so a failing write rejects to the caller
(`Except.error`).  When the id is already a substring no write is issued. -/
def addToAllChatsE (setOk : Bool) (x st : String) : Except Unit String :=
  if containsSub st x then .ok st
  else if setOk then .ok (if st = "" then x else st ++ "," ++ x) else .error ()

/-- `removeFromAllChats(chatIdStr)`: globally replaces `,?id(,|$)` with the
empty string in the `all_chats` value and writes the result back. -/
def removeFromAllChats (x st : String) : String :=
  String.mk (gReplace x.toList st.toList)

/-- `removeFromAllChats` with the outcome of its KV operations made
explicit: no try/catch, so a failing `kv.get`/`kv.set` rejects to the caller
and leaves the stored value unchanged. -/
def removeFromAllChatsE (kvOk : Bool) (x st : String) : Except Unit String :=
  if kvOk then .ok (removeFromAllChats x st) else .error ()

/-- `getAllChatIds()`: splits the `all_chats` value at commas; the ternary
`allIdsStr ? split : []` maps the empty string to the empty list. -/
def getAllChatIds (st : String) : List String :=
  if st = "" then [] else (splitComma st.toList).map String.mk

/-- KV-variant state: the `all_chats` key and the per-chat `chat:<id>` keys
(modelled as an association list id ↦ kind). -/
structure KvSt where
  all : String
  chats : List (String × String)
deriving DecidableEq

/-- `storeChatId(chatId, chatType)`: writes the `chat:<id>` record only for
kinds `group`, `supergroup`, `private`; otherwise does nothing.  This is the
only place the KV variant tests the chat kind. -/
def storeChatId (x kind : String) (st : KvSt) : KvSt :=
  if allowedKind kind then
    { st with chats := (x, kind) :: st.chats.filter (fun p => p.1 != x) }
  else st

/-- The `new_chat_members` handler of the KV variant: `storeChatId` (kind
gated) followed by `addToAllChats` (NOT kind gated). -/
def onNewChatMembers (x kind : String) (st : KvSt) : KvSt :=
  let st1 := storeChatId x kind st
  { st1 with all := addToAllChats x st1.all }

/-- The `/start` handler of the KV variant: same two calls as
`onNewChatMembers`. -/
def onStart (x kind : String) (st : KvSt) : KvSt :=
  let st1 := storeChatId x kind st
  { st1 with all := addToAllChats x st1.all }

/-- Error classification of the KV variant:
`err.message.includes('chat not found') || err.message.includes('blocked')`. -/
def classifyKv (m : String) : Bool :=
  containsSub m "chat not found" || containsSub m "blocked"

/-- Result of the KV broadcast loop: either it finishes with a count, the
attempted destinations and the final store, or an exception thrown by an
unguarded `removeFromAllChats` aborts it (attempts so far, store unchanged
by the failing call). -/
inductive KRes
  | done (sentTo : Nat) (attempts : List String) (store : String)
  | thrown (attempts : List String) (store : String)
deriving DecidableEq

/-- The broadcast loop of the KV variant.  `rOk d` is the outcome of the KV
operations inside `removeFromAllChats(d)`; a `false` outcome rethrows out of
the `catch` block, aborting the loop. -/
def sendLoopK (send : String → Outcome) (rOk : String → Bool) :
    List String → String → KRes
  | [], st => .done 0 [] st
  | d :: ds, st =>
    match send d with
    | .ok =>
      match sendLoopK send rOk ds st with
      | .done n as st2 => .done (n + 1) (d :: as) st2
      | .thrown as st2 => .thrown (d :: as) st2
    | .err m =>
      if classifyKv m then
        if rOk d then
          match sendLoopK send rOk ds (removeFromAllChats d st) with
          | .done n as st2 => .done n (d :: as) st2
          | .thrown as st2 => .thrown (d :: as) st2
        else .thrown [d] st
      else
        match sendLoopK send rOk ds st with
        | .done n as st2 => .done n (d :: as) st2
        | .thrown as st2 => .thrown (d :: as) st2

/-- The `POST /send-report` handler of the KV variant: 400 on missing or
empty `message`; `getOk` is the outcome of the initial `kv.get` (a failure
reaches the outer catch: 500); an empty registry returns `{ sentTo: 0 }`
with NO `totalChats` field; otherwise the loop runs, and an exception thrown
inside it also reaches the outer catch: 500. -/
def sendReportK (send : String → Outcome) (rOk : String → Bool) (getOk : Bool)
    (body : Option String) (st : String) : Resp × List String × String :=
  match body with
  | none => (.badRequest, [], st)
  | some msg =>
    if msg = "" then (.badRequest, [], st)
    else if getOk then
      let ds := getAllChatIds st
      if ds.length = 0 then (.ok 0 none, [], st)
      else
        match sendLoopK send rOk ds st with
        | .done n as st2 => (.ok n (some ds.length), as, st2)
        | .thrown as st2 => (.serverError, as, st2)
    else (.serverError, [], st)

end KvV

/-! ## Registry operation sequences (for the duplicate-freedom invariant) -/

/-- One registry mutation: an `addChat` or a `removeChat`. -/
inductive RegOp
  | add (x : String)
  | remove (x : String)

/-- Applies one mutation to the file-variant state. -/
def applyOp (wOk : Bool) (s : FileV.FileState) : RegOp → FileV.FileState
  | .add x => FileV.addChat wOk x s
  | .remove x => FileV.removeChat wOk x s

/-- Applies a sequence of mutations to the file-variant state, in order. -/
def applyOps (wOk : Bool) (ops : List RegOp) (s : FileV.FileState) : FileV.FileState :=
  ops.foldl (applyOp wOk) s

/-! ## Helper lemmas -/

theorem memB_iff (x : String) (l : List String) : memB x l = true ↔ x ∈ l := by
  induction l with
  | nil => simp [memB]
  | cons d ds ih => simp [memB, ih]

theorem isPrefixB_iff (p l : List Char) : isPrefixB p l = true ↔ p <+: l := by
  induction p generalizing l with
  | nil => simp [isPrefixB]
  | cons a as ih =>
    cases l with
    | nil => simp [isPrefixB]
    | cons b bs =>
      simp only [isPrefixB, Bool.and_eq_true, beq_iff_eq, ih, List.cons_prefix_cons]

theorem isInfixB_iff (p l : List Char) : isInfixB p l = true ↔ p <:+: l := by
  induction l with
  | nil => simp [isInfixB, isPrefixB_iff]
  | cons c rest ih =>
    simp only [isInfixB, Bool.or_eq_true, isPrefixB_iff, ih, List.infix_cons_iff]

theorem splitComma_length_pos (l : List Char) : 0 < (splitComma l).length := by
  cases l with
  | nil => simp [splitComma]
  | cons c rest =>
    simp only [splitComma]
    split
    · simp
    · cases h : splitComma rest <;> simp

theorem dropPref_length {p cs r : List Char} (h : dropPref p cs = some r) :
    p.length + r.length = cs.length := by
  induction p generalizing cs with
  | nil => simp [dropPref] at h; simp [h]
  | cons a as ih =>
    cases cs with
    | nil => simp [dropPref] at h
    | cons c cs' =>
      simp only [dropPref] at h
      split at h
      · have := ih h
        simp [List.length_cons]
        omega
      · exact absurd h (by simp)

theorem matchIdEnd_length {id cs r : List Char} (h : matchIdEnd id cs = some r) :
    r.length ≤ cs.length ∧ (id ≠ [] → r.length < cs.length) := by
  unfold matchIdEnd at h
  cases hd : dropPref id cs with
  | none => rw [hd] at h; exact absurd h (by simp)
  | some rest0 =>
    rw [hd] at h
    have hlen := dropPref_length hd
    cases rest0 with
    | nil =>
      simp at h
      subst h
      constructor
      · simp
      · intro hne
        have : 0 < id.length := List.length_pos.mpr hne
        simp
        omega
    | cons c r0 =>
      simp only at h
      split at h
      · simp at h
        subst h
        simp at hlen
        exact ⟨by omega, fun _ => by omega⟩
      · exact absurd h (by simp)

theorem matchAt_length {id : List Char} {c : Char} {rest r : List Char}
    (h : matchAt id (c :: rest) = some r) : r.length ≤ rest.length := by
  unfold matchAt at h
  by_cases hc : c = ','
  · simp only [hc, if_pos rfl] at h
    cases h1 : matchIdEnd id rest with
    | some out =>
      rw [h1] at h
      simp at h
      subst h
      exact (matchIdEnd_length h1).1
    | none =>
      rw [h1] at h
      simp only at h
      rcases eq_or_ne id [] with hid | hid
      · subst hid
        unfold matchIdEnd dropPref at h
        simp at h
        subst h
        simp [hc]
      · have := (matchIdEnd_length h).2 hid
        simp at this
        omega
  · simp only [if_neg hc] at h
    rcases eq_or_ne id [] with hid | hid
    · subst hid
      unfold matchIdEnd dropPref at h
      simp [hc] at h
    · have := (matchIdEnd_length h).2 hid
      simp at this
      omega

theorem gReplaceF_fuel (id : List Char) :
    ∀ f g cs, cs.length ≤ f → cs.length ≤ g →
      gReplaceF id f cs = gReplaceF id g cs := by
  intro f
  induction f with
  | zero =>
    intro g cs hf _
    have : cs = [] := by
      cases cs with
      | nil => rfl
      | cons c r => simp at hf
    subst this
    cases g <;> simp [gReplaceF]
  | succ f ih =>
    intro g cs hf hg
    cases cs with
    | nil => cases g <;> simp [gReplaceF]
    | cons c rest =>
      cases g with
      | zero => simp at hg
      | succ g' =>
        simp only [gReplaceF]
        cases hm : matchAt id (c :: rest) with
        | some r =>
          have hr := matchAt_length hm
          simp only [List.length_cons] at hf hg
          exact ih g' r (by omega) (by omega)
        | none =>
          simp only [List.length_cons] at hf hg
          rw [ih g' rest (by omega) (by omega)]

/-- The fuel `cs.length` is enough: `gReplace` satisfies the defining
equations of the JS global-replace scan. -/
theorem gReplace_cons (id : List Char) (c : Char) (rest : List Char) :
    gReplace id (c :: rest) =
      match matchAt id (c :: rest) with
      | some r => gReplace id r
      | none => c :: gReplace id rest := by
  unfold gReplace
  simp only [List.length_cons, gReplaceF]
  cases hm : matchAt id (c :: rest) with
  | some r =>
    have hr := matchAt_length hm
    exact gReplaceF_fuel id rest.length r.length r hr (le_refl _)
  | none =>
    rfl

theorem string_toList_append (a b : String) : (a ++ b).toList = a.toList ++ b.toList := by
  cases a
  cases b
  rfl

/-! ### File-variant loop characterization -/

theorem saveChats_chatIds (wOk : Bool) (s : FileV.FileState) :
    (FileV.saveChats wOk s).chatIds = s.chatIds := by
  unfold FileV.saveChats
  split <;> rfl

theorem removeChat_chatIds (wOk : Bool) (x : String) (s : FileV.FileState) :
    (FileV.removeChat wOk x s).chatIds = s.chatIds.filter (fun e => e != x) := by
  unfold FileV.removeChat
  rw [saveChats_chatIds]

theorem addChat_chatIds (wOk : Bool) (x : String) (s : FileV.FileState) :
    (FileV.addChat wOk x s).chatIds =
      if x ∈ s.chatIds then s.chatIds else s.chatIds ++ [x] := by
  unfold FileV.addChat
  by_cases h : x ∈ s.chatIds
  · simp [h]
  · simp [h, saveChats_chatIds]

theorem sendLoop_attempts (send : String → Outcome) (wOk : Bool)
    (ds : List String) (s : FileV.FileState) :
    (FileV.sendLoop send wOk ds s).attempts = ds := by
  induction ds generalizing s with
  | nil => rfl
  | cons d ds ih =>
    unfold FileV.sendLoop
    cases h : send d <;> simp [ih]

theorem sendLoop_sentTo (send : String → Outcome) (wOk : Bool)
    (ds : List String) (s : FileV.FileState) :
    (FileV.sendLoop send wOk ds s).sentTo = countOk send ds := by
  induction ds generalizing s with
  | nil => rfl
  | cons d ds ih =>
    unfold FileV.sendLoop
    cases h : send d <;> simp [ih, countOk, List.countP_cons, h, isOkB]

theorem sendLoop_chatIds (send : String → Outcome) (wOk : Bool)
    (ds : List String) (s : FileV.FileState) :
    (FileV.sendLoop send wOk ds s).state.chatIds =
      s.chatIds.filter
        (fun x => !(memB x ds && permFail FileV.classifyFile send x)) := by
  induction ds generalizing s with
  | nil => simp [FileV.sendLoop, memB]
  | cons d ds ih =>
    unfold FileV.sendLoop
    cases h : send d with
    | ok =>
      simp only
      rw [ih]
      apply List.filter_congr
      intro x hx
      by_cases hxd : x = d
      · subst hxd
        simp [permFail, h, memB]
      · have hb : (x == d) = false := beq_eq_false_iff_ne.mpr hxd
        simp [memB, hb, hxd]
    | err m =>
      cases hm : FileV.classifyFile m with
      | true =>
        simp only [hm, if_true]
        rw [ih, removeChat_chatIds, List.filter_filter]
        apply List.filter_congr
        intro x hx
        by_cases hxd : x = d
        · subst hxd
          simp [permFail, h, hm, memB]
        · have hb : (x == d) = false := beq_eq_false_iff_ne.mpr hxd
          simp [memB, hb, hxd]
      | false =>
        simp only [hm, Bool.false_eq_true, if_false]
        rw [ih]
        apply List.filter_congr
        intro x hx
        by_cases hxd : x = d
        · subst hxd
          simp [permFail, h, hm, memB]
        · have hb : (x == d) = false := beq_eq_false_iff_ne.mpr hxd
          simp [memB, hb, hxd]

/-! ### KV-variant loop characterization -/

theorem storeChatId_all (x kind : String) (st : KvV.KvSt) :
    (KvV.storeChatId x kind st).all = st.all := by
  unfold KvV.storeChatId
  split <;> rfl

theorem foldl_prune (send : String → Outcome) (ds : List String) (st : String)
    (h : ∀ d ∈ ds, permFail KvV.classifyKv send d = false) :
    ds.foldl
      (fun acc d =>
        if permFail KvV.classifyKv send d then KvV.removeFromAllChats d acc else acc)
      st = st := by
  induction ds generalizing st with
  | nil => rfl
  | cons d ds ih =>
    rw [List.foldl_cons]
    have hd : permFail KvV.classifyKv send d = false := h d (by simp)
    rw [hd]
    simp only [Bool.false_eq_true, if_false]
    exact ih st (fun e he => h e (by simp [he]))

theorem sendLoopK_done (send : String → Outcome) (rOk : String → Bool)
    (hr : ∀ d, rOk d = true) (ds : List String) (st : String) :
    KvV.sendLoopK send rOk ds st =
      .done (countOk send ds) ds
        (ds.foldl
          (fun acc d =>
            if permFail KvV.classifyKv send d then KvV.removeFromAllChats d acc
            else acc) st) := by
  induction ds generalizing st with
  | nil => rfl
  | cons d ds ih =>
    unfold KvV.sendLoopK
    cases h : send d with
    | ok =>
      rw [ih]
      simp [countOk, List.countP_cons, isOkB, h, permFail]
    | err m =>
      cases hm : KvV.classifyKv m with
      | true =>
        rw [hr d]
        simp only [hm, if_true]
        rw [ih]
        simp [countOk, List.countP_cons, isOkB, h, permFail, hm]
      | false =>
        simp only [hm, Bool.false_eq_true, if_false]
        rw [ih]
        simp [countOk, List.countP_cons, isOkB, h, permFail, hm]

/-! ### Idempotence and duplicate freedom -/

theorem containsSub_append_self (st x : String) :
    containsSub (if st = "" then x else st ++ "," ++ x) x = true := by
  unfold containsSub
  rw [isInfixB_iff]
  split
  · exact List.infix_refl _
  · rw [string_toList_append, string_toList_append]
    exact (List.suffix_append (st.toList ++ ",".toList) x.toList).isInfix

theorem addToAllChats_of_mem (x st2 : String) (h : containsSub st2 x = true) :
    KvV.addToAllChats x st2 = st2 := by
  unfold KvV.addToAllChats
  simp [h]

theorem addToAllChats_mem (x st : String) :
    containsSub (KvV.addToAllChats x st) x = true := by
  unfold KvV.addToAllChats
  by_cases h : containsSub st x
  · simp [h]
  · simp only [h, Bool.false_eq_true, if_false]
    exact containsSub_append_self st x

theorem addToAllChats_idem (x st : String) :
    KvV.addToAllChats x (KvV.addToAllChats x st) = KvV.addToAllChats x st :=
  addToAllChats_of_mem x _ (addToAllChats_mem x st)

theorem addChat_of_mem (wOk : Bool) (x : String) (s : FileV.FileState)
    (h : x ∈ s.chatIds) : FileV.addChat wOk x s = s := by
  unfold FileV.addChat
  simp [h]

theorem addChat_idem (wOk2 wOk1 : Bool) (x : String) (s : FileV.FileState) :
    FileV.addChat wOk2 x (FileV.addChat wOk1 x s) = FileV.addChat wOk1 x s := by
  apply addChat_of_mem
  rw [addChat_chatIds]
  by_cases h : x ∈ s.chatIds
  · simp [h]
  · simp [h]

theorem addChat_nodup (wOk : Bool) (x : String) (s : FileV.FileState)
    (h : s.chatIds.Nodup) : (FileV.addChat wOk x s).chatIds.Nodup := by
  rw [addChat_chatIds]
  by_cases hx : x ∈ s.chatIds
  · simpa [hx]
  · simp [hx, List.nodup_append, h]

theorem removeChat_nodup (wOk : Bool) (x : String) (s : FileV.FileState)
    (h : s.chatIds.Nodup) : (FileV.removeChat wOk x s).chatIds.Nodup := by
  rw [removeChat_chatIds]
  exact h.filter _

theorem applyOps_nodup (wOk : Bool) (ops : List RegOp) (s : FileV.FileState)
    (h : s.chatIds.Nodup) : (applyOps wOk ops s).chatIds.Nodup := by
  induction ops generalizing s with
  | nil => exact h
  | cons op ops ih =>
    cases op with
    | add x => exact ih _ (addChat_nodup wOk x s h)
    | remove x => exact ih _ (removeChat_nodup wOk x s h)

/-! ## Claims -/

/-- C1, counterexample.  In the KV variant the broadcast loop is NOT
guaranteed to attempt all destinations: with registry `["1", "2"]`, when the
send to `"1"` fails with a permanently-classified error and the unguarded
`removeFromAllChats` then fails its KV operation, the exception aborts the
loop — only one of the two destinations is attempted and the response is a
500, not a `sentTo`/`totalChats` body. -/
theorem claim1_counterexample :
    KvV.sendReportK (fun d => if d = "1" then .err "chat not found" else .ok)
        (fun _ => false) true (some "hello") "1,2" =
      (.serverError, ["1"], "1,2")
    ∧ KvV.getAllChatIds "1,2" = ["1", "2"] := by decide

/-- C1, amended.  File variant: for every message and every registry, the
broadcast attempts exactly one send per destination (the attempts list is the
registry snapshot), and responds `sentTo = K` (the number of successful
sends) and `totalChats = N`.  KV variant: the same holds provided the KV
operations of every pruning `removeFromAllChats` succeed and the registry is
not empty (an empty KV registry responds without a `totalChats` field, and a
failing prune aborts the loop: see the counterexamples of C1 and C6). -/
theorem claim1_theorem :
    (∀ (send : String → Outcome) (wOk : Bool) (m : String) (s : FileV.FileState),
      m ≠ "" →
        (FileV.sendReport send wOk (some m) s).1 =
            .ok (countOk send (FileV.getAllChatIds s))
              (some (FileV.getAllChatIds s).length)
        ∧ (FileV.sendReport send wOk (some m) s).2.1 = FileV.getAllChatIds s)
    ∧ (∀ (send : String → Outcome) (rOk : String → Bool) (m st : String),
      m ≠ "" → (∀ d, rOk d = true) → st ≠ "" →
        (KvV.sendReportK send rOk true (some m) st).1 =
            .ok (countOk send (KvV.getAllChatIds st))
              (some (KvV.getAllChatIds st).length)
        ∧ (KvV.sendReportK send rOk true (some m) st).2.1 =
            KvV.getAllChatIds st) := by
  constructor
  · intro send wOk m s hm
    unfold FileV.sendReport
    dsimp only
    rw [if_neg hm]
    by_cases h0 : (FileV.getAllChatIds s).length = 0
    · have he : FileV.getAllChatIds s = [] := List.length_eq_zero.mp h0
      simp [h0, he, countOk]
    · simp only [h0, if_false]
      exact ⟨by rw [sendLoop_sentTo], by rw [sendLoop_attempts]⟩
  · intro send rOk m st hm hr hst
    unfold KvV.sendReportK
    dsimp only
    rw [if_neg hm]
    have h0 : ¬ (KvV.getAllChatIds st).length = 0 := by
      unfold KvV.getAllChatIds
      rw [if_neg hst]
      have := splitComma_length_pos st.toList
      simp only [List.length_map]
      omega
    simp only [if_true, h0, if_false]
    rw [sendLoopK_done send rOk hr]
    exact ⟨rfl, rfl⟩

/-- C1, witness of the amended theorem at a concrete run: registry of two
destinations, the first send succeeds, the second fails with an untracked
error; both variants report one success out of two chats. -/
theorem claim1_witness :
    (FileV.sendReport (fun d => if d = "1" then .ok else .err "boom") true
        (some "hello") ⟨["1", "2"], none⟩).1 = .ok 1 (some 2)
    ∧ (KvV.sendReportK (fun d => if d = "1" then .ok else .err "boom")
        (fun _ => true) true (some "hello") "1,2").1 = .ok 1 (some 2) :=
  ⟨(claim1_theorem.1 _ true "hello" _ (by decide)).1,
   (claim1_theorem.2 _ _ "hello" "1,2" (by decide) (fun _ => rfl) (by decide)).1⟩

/-- C2, counterexample.  The KV variant prunes on any error message merely
containing `blocked`: with registry `["111", "222"]`, a send to `"222"`
failing with `bot was blocked` — an error carrying neither `chat not found`
nor `blocked by user` — still triggers removal, and `"222"` is gone from the
registry afterwards, where the claim says it must remain. -/
theorem claim2_counterexample :
    KvV.classifyKv "bot was blocked" = true
    ∧ containsSub "bot was blocked" "chat not found" = false
    ∧ containsSub "bot was blocked" "blocked by user" = false
    ∧ KvV.sendReportK (fun d => if d = "222" then .err "bot was blocked" else .ok)
        (fun _ => true) true (some "hi") "111,222" =
        (.ok 1 (some 2), ["111", "222"], "111")
    ∧ "222" ∉ KvV.getAllChatIds "111" := by decide

/-- C2, amended.  File variant, exactly as claimed: a destination failing
with an error containing `chat not found` or `blocked by user` is absent
from the registry after the loop, and a registered destination failing with
any other error is still present.  KV variant: the permanent class is wider
(any message containing `chat not found` or merely `blocked`); on such a
failure `removeFromAllChats` is invoked — the store becomes the left fold of
the regex deletion over the classified failures, which does not always
eliminate the id from `listAll` (see C4) — and when no failure is classified
the store is returned unchanged. -/
theorem claim2_theorem :
    (∀ (send : String → Outcome) (wOk : Bool) (ds : List String)
        (s : FileV.FileState) (y m : String),
        y ∈ ds → send y = .err m → FileV.classifyFile m = true →
        y ∉ (FileV.sendLoop send wOk ds s).state.chatIds)
    ∧ (∀ (send : String → Outcome) (wOk : Bool) (ds : List String)
        (s : FileV.FileState) (y m : String),
        y ∈ s.chatIds → send y = .err m → FileV.classifyFile m = false →
        y ∈ (FileV.sendLoop send wOk ds s).state.chatIds)
    ∧ (∀ (send : String → Outcome) (rOk : String → Bool),
        (∀ d, rOk d = true) → ∀ (ds : List String) (st : String),
        KvV.sendLoopK send rOk ds st =
          .done (countOk send ds) ds
            (ds.foldl
              (fun acc d =>
                if permFail KvV.classifyKv send d then KvV.removeFromAllChats d acc
                else acc) st))
    ∧ (∀ (send : String → Outcome) (rOk : String → Bool) (ds : List String)
        (st : String),
        (∀ d, rOk d = true) → (∀ d ∈ ds, permFail KvV.classifyKv send d = false) →
        KvV.sendLoopK send rOk ds st = .done (countOk send ds) ds st) := by
  refine ⟨?_, ?_, ?_, ?_⟩
  · intro send wOk ds s y m hy hsend hcl hmem
    rw [sendLoop_chatIds] at hmem
    have := (List.mem_filter.mp hmem).2
    rw [(memB_iff y ds).mpr hy] at this
    simp [permFail, hsend, hcl] at this
  · intro send wOk ds s y m hy hsend hcl
    rw [sendLoop_chatIds]
    apply List.mem_filter.mpr
    refine ⟨hy, ?_⟩
    simp [permFail, hsend, hcl]
  · intro send rOk hr ds st
    exact sendLoopK_done send rOk hr ds st
  · intro send rOk ds st hr hperm
    rw [sendLoopK_done send rOk hr ds st, foldl_prune send ds st hperm]

/-- C2, witness of the amended theorem: a classified failure removes the
destination in the file variant, an unclassified failure keeps it, and a KV
loop without classified failures leaves the store untouched. -/
theorem claim2_witness :
    "222" ∉ (FileV.sendLoop (fun d => if d = "222" then .err "chat not found" else .ok)
        true ["111", "222"] ⟨["111", "222"], none⟩).state.chatIds
    ∧ "99" ∈ (FileV.sendLoop (fun d => if d = "99" then .err "boom" else .ok)
        true ["99"] ⟨["99"], none⟩).state.chatIds
    ∧ KvV.sendLoopK (fun _ => .ok) (fun _ => true) ["222"] "222" =
        .done 1 ["222"] "222"
    ∧ KvV.sendLoopK (fun _ => .err "oops") (fun _ => true) ["111"] "111" =
        .done 0 ["111"] "111" :=
  ⟨claim2_theorem.1 _ true _ _ "222" "chat not found" (by decide) (by decide) (by decide),
   claim2_theorem.2.1 _ true _ _ "99" "boom" (by decide) (by decide) (by decide),
   claim2_theorem.2.2.1 _ _ (fun _ => rfl) ["222"] "222",
   claim2_theorem.2.2.2 _ _ ["111"] "111" (fun _ => rfl) (by decide)⟩

/-- C3, counterexample.  The file-variant `/start` handler registers the
chat without any test on its kind: a `/start` event carrying kind `channel`
changes `listAll()` from `[]` to `["999"]`. -/
theorem claim3_counterexample :
    FileV.getAllChatIds (FileV.startCmd true "999" "channel" ⟨[], none⟩) = ["999"]
    ∧ FileV.getAllChatIds (FileV.startCmd true "999" "channel" ⟨[], none⟩) ≠
        FileV.getAllChatIds ⟨[], none⟩ := by decide

/-- C3, amended.  Only the file-variant `new_chat_members` handler filters
kinds: for a kind outside group/supergroup/private it leaves the whole state
unchanged.  The file-variant `/start` handler registers the chat regardless
of kind, and both KV-variant handlers update the broadcast registry
`all_chats` regardless of kind (their kind test only gates the side
`chat:<id>` record). -/
theorem claim3_theorem :
    (∀ (wOk : Bool) (x kind : String) (s : FileV.FileState),
        allowedKind kind = false → FileV.newChatMembers wOk x kind s = s)
    ∧ (∀ (wOk : Bool) (x kind : String) (s : FileV.FileState),
        FileV.startCmd wOk x kind s = FileV.addChat wOk x s)
    ∧ (∀ (x kind : String) (st : KvV.KvSt),
        (KvV.onNewChatMembers x kind st).all = KvV.addToAllChats x st.all)
    ∧ (∀ (x kind : String) (st : KvV.KvSt),
        (KvV.onStart x kind st).all = KvV.addToAllChats x st.all) := by
  refine ⟨?_, ?_, ?_, ?_⟩
  · intro wOk x kind s h
    unfold FileV.newChatMembers
    rw [h]
    simp
  · intro wOk x kind s
    rfl
  · intro x kind st
    unfold KvV.onNewChatMembers
    dsimp only
    rw [storeChatId_all]
  · intro x kind st
    unfold KvV.onStart
    dsimp only
    rw [storeChatId_all]

/-- C3, witness of the amended theorem at concrete inputs (kind `channel`). -/
theorem claim3_witness :
    FileV.newChatMembers true "555" "channel" ⟨["111"], none⟩ = ⟨["111"], none⟩
    ∧ FileV.startCmd true "555" "channel" ⟨[], none⟩ =
        FileV.addChat true "555" ⟨[], none⟩
    ∧ (KvV.onNewChatMembers "555" "channel" ⟨"111", []⟩).all =
        KvV.addToAllChats "555" "111"
    ∧ (KvV.onStart "555" "channel" ⟨"111", []⟩).all =
        KvV.addToAllChats "555" "111" :=
  ⟨claim3_theorem.1 true "555" "channel" _ (by decide),
   claim3_theorem.2.1 true "555" "channel" _,
   claim3_theorem.2.2.1 "555" "channel" _,
   claim3_theorem.2.2.2 "555" "channel" _⟩

/-- C4, evaluation at the failing input.  The KV `removeFromAllChats` regex
deletes the separator captured by `(,|$)` together with the id: removing the
middle member `222` of `111,222,333` merges its neighbors into the single
corrupted id `111333`, so the other members `111` and `333` are NOT left
unchanged.  The state `111,222,333` is reachable by three plain adds. -/
theorem claim4_theorem :
    KvV.addToAllChats "333" (KvV.addToAllChats "222" (KvV.addToAllChats "111" ""))
        = "111,222,333"
    ∧ KvV.removeFromAllChats "222" "111,222,333" = "111333"
    ∧ KvV.getAllChatIds "111333" = ["111333"]
    ∧ "111" ∉ KvV.getAllChatIds (KvV.removeFromAllChats "222" "111,222,333")
    ∧ "333" ∉ KvV.getAllChatIds (KvV.removeFromAllChats "222" "111,222,333") := by
  decide

/-- C5, counterexample.  The KV helpers have no try/catch: when the backing
store write fails, `addToAllChats` and `removeFromAllChats` reject to their
caller instead of swallowing the error. -/
theorem claim5_counterexample :
    KvV.addToAllChatsE false "1" "" = .error ()
    ∧ KvV.removeFromAllChatsE false "1" "1" = .error () := ⟨rfl, rfl⟩

/-- C5, amended.  File variant, exactly as claimed: `addChat` and
`removeChat` are total, the in-memory array reflects the mutation whatever
the outcome of the file write (the write failure is caught inside
`saveChats`).  KV variant: there is no in-memory state, and a failing store
operation rejects to the caller — `addToAllChatsE` fails whenever it has to
write (the id not being a substring already), `removeFromAllChatsE` fails
unconditionally on a failing store. -/
theorem claim5_theorem :
    (∀ (wOk : Bool) (x : String) (s : FileV.FileState),
        (FileV.addChat wOk x s).chatIds =
          if x ∈ s.chatIds then s.chatIds else s.chatIds ++ [x])
    ∧ (∀ (wOk : Bool) (x : String) (s : FileV.FileState),
        (FileV.removeChat wOk x s).chatIds = s.chatIds.filter (fun e => e != x))
    ∧ (∀ x st : String, containsSub st x = false →
        KvV.addToAllChatsE false x st = .error ())
    ∧ (∀ x st : String, KvV.removeFromAllChatsE false x st = .error ()) := by
  refine ⟨addChat_chatIds, removeChat_chatIds, ?_, ?_⟩
  · intro x st h
    unfold KvV.addToAllChatsE
    simp [h]
  · intro x st
    rfl

/-- C5, witness of the amended theorem at concrete inputs. -/
theorem claim5_witness :
    (FileV.addChat false "5" ⟨[], none⟩).chatIds = ["5"]
    ∧ (FileV.removeChat false "5" ⟨["5"], none⟩).chatIds = []
    ∧ KvV.addToAllChatsE false "5" "" = .error ()
    ∧ KvV.removeFromAllChatsE false "5" "5" = .error () :=
  ⟨claim5_theorem.1 false "5" _, claim5_theorem.2.1 false "5" _,
   claim5_theorem.2.2.1 "5" "" (by decide), claim5_theorem.2.2.2 "5" "5"⟩

/-- C6, counterexample.  On an empty registry the KV variant responds
`return res.json({ sentTo: 0 })` — the `totalChats` field is absent, so the
response is not the claimed `sentCount = 0, totalChats = 0` body. -/
theorem claim6_counterexample :
    KvV.sendReportK (fun _ => .ok) (fun _ => true) true (some "hello") "" =
      (.ok 0 none, [], "")
    ∧ Resp.ok 0 none ≠ Resp.ok 0 (some 0) := by decide

/-- C6, amended.  A broadcast over an empty registry attempts no send and
leaves the registry untouched in both variants; the file variant responds
`sentTo = 0, totalChats = 0`, the KV variant responds `sentTo = 0` with no
`totalChats` field. -/
theorem claim6_theorem :
    (∀ (send : String → Outcome) (wOk : Bool) (m : String) (s : FileV.FileState),
        m ≠ "" → s.chatIds = [] →
        FileV.sendReport send wOk (some m) s = (.ok 0 (some 0), [], s))
    ∧ (∀ (send : String → Outcome) (rOk : String → Bool) (m : String),
        m ≠ "" →
        KvV.sendReportK send rOk true (some m) "" = (.ok 0 none, [], "")) := by
  constructor
  · intro send wOk m s hm hs
    unfold FileV.sendReport
    dsimp only
    rw [if_neg hm]
    simp [FileV.getAllChatIds, hs]
  · intro send rOk m hm
    unfold KvV.sendReportK
    dsimp only
    rw [if_neg hm]
    simp [KvV.getAllChatIds]

/-- C6, witness of the amended theorem at concrete inputs. -/
theorem claim6_witness :
    FileV.sendReport (fun _ => .ok) true (some "hello") ⟨[], some []⟩ =
      (.ok 0 (some 0), [], ⟨[], some []⟩)
    ∧ KvV.sendReportK (fun _ => .ok) (fun _ => true) true (some "hello") "" =
      (.ok 0 none, [], "") :=
  ⟨claim6_theorem.1 _ true "hello" _ (by decide) rfl,
   claim6_theorem.2 _ _ "hello" (by decide)⟩

/-- C7, evaluation at the failing input.  Starting from the empty KV
registry, the reachable sequence add `1`, add `3`, add `2`, add `12`
followed by a broadcast in which the send to `3` fails with `chat not
found` leaves the store as `12,12`: the regex removal of the middle member
`3` merged its neighbors `1` and `2,12`-head into a second copy of `12`,
so `listAll()` returns the duplicate list `["12", "12"]`. -/
theorem claim7_theorem :
    KvV.addToAllChats "12" (KvV.addToAllChats "2" (KvV.addToAllChats "3"
        (KvV.addToAllChats "1" ""))) = "1,3,2,12"
    ∧ KvV.sendReportK (fun d => if d = "3" then .err "chat not found" else .ok)
        (fun _ => true) true (some "hello") "1,3,2,12" =
        (.ok 3 (some 4), ["1", "3", "2", "12"], "12,12")
    ∧ KvV.getAllChatIds "12,12" = ["12", "12"]
    ∧ ¬ (KvV.getAllChatIds "12,12").Nodup := by decide

/-- C8.  Startup load of the persisted representation: a missing file and a
representation `JSON.parse` rejects both initialize the registry to the
empty set, a parseable array is restored as the membership; `loadChats` is
total, so nothing is raised to the caller. -/
theorem claim8_theorem :
    ∀ parse : String → Except Unit (List String),
      FileV.loadChats parse none = []
      ∧ (∀ raw : String, parse raw = .error () →
          FileV.loadChats parse (some raw) = [])
      ∧ (∀ (raw : String) (l : List String), parse raw = .ok l →
          FileV.loadChats parse (some raw) = l) := by
  intro parse
  refine ⟨rfl, ?_, ?_⟩
  · intro raw h
    unfold FileV.loadChats
    dsimp only
    rw [h]
  · intro raw l h
    unfold FileV.loadChats
    dsimp only
    rw [h]

/-- C8, witness at concrete parse outcomes. -/
theorem claim8_witness :
    FileV.loadChats (fun _ => .ok ["111"]) none = []
    ∧ FileV.loadChats (fun _ => .error ()) (some "zzz") = []
    ∧ FileV.loadChats (fun _ => .ok ["111"]) (some "raw") = ["111"] :=
  ⟨(claim8_theorem _).1, (claim8_theorem _).2.1 "zzz" rfl,
   (claim8_theorem _).2.2 "raw" ["111"] rfl⟩

/-- C9.  A `POST /send-report` whose body has no `message` or an empty
`message` is rejected with a 400 in both variants, before any send and
before any read or write of the registry: the state comes back unchanged
and the attempts list is empty. -/
theorem claim9_theorem :
    ∀ body : Option String, body = none ∨ body = some "" →
      (∀ (send : String → Outcome) (wOk : Bool) (s : FileV.FileState),
        FileV.sendReport send wOk body s = (.badRequest, [], s))
      ∧ (∀ (send : String → Outcome) (rOk : String → Bool) (getOk : Bool)
          (st : String),
        KvV.sendReportK send rOk getOk body st = (.badRequest, [], st)) := by
  intro body h
  rcases h with h | h <;> subst h <;>
    exact ⟨fun send wOk s => rfl, fun send rOk getOk st => rfl⟩

/-- C9, witness at both rejected bodies. -/
theorem claim9_witness :
    FileV.sendReport (fun _ => .ok) true none ⟨["111"], none⟩ =
      (.badRequest, [], ⟨["111"], none⟩)
    ∧ KvV.sendReportK (fun _ => .ok) (fun _ => true) true (some "") "111" =
      (.badRequest, [], "111") :=
  ⟨(claim9_theorem none (Or.inl rfl)).1 _ _ _,
   (claim9_theorem (some "") (Or.inr rfl)).2 _ _ _ _⟩

/-- C10.  In the KV variant, whenever the id occurs as a substring of the
comma-joined stored value — member or not — `addToAllChats` returns the
store unchanged and issues no write at all (so it cannot even fail). -/
theorem claim10_theorem :
    ∀ x st : String, containsSub st x = true →
      KvV.addToAllChats x st = st
      ∧ ∀ setOk : Bool, KvV.addToAllChatsE setOk x st = .ok st := by
  intro x st h
  constructor
  · unfold KvV.addToAllChats
    simp [h]
  · intro setOk
    unfold KvV.addToAllChatsE
    simp [h]

/-- C10, witness: `add("11")` is a no-op when only `111` is registered,
because `11` occurs inside `111`. -/
theorem claim10_witness :
    containsSub "111" "11" = true
    ∧ KvV.addToAllChats "11" "111" = "111"
    ∧ KvV.addToAllChatsE false "11" "111" = .ok "111" :=
  ⟨by decide, ( claim10_theorem "11" "111" (by decide)).1,
   ( claim10_theorem "11" "111" (by decide)).2 false⟩

end Bereke
